import Mathlib

/-!
Shallow embedding of the user-management service of the Kdl-backend
repository (`src/app/modules/user/services/user.service.ts`, the pagination
DTO `src/app/common/dto/pagination.dto.ts`, and the user controller).

The persistence layer (TypeORM repository) is modelled as a `List UserEntity`
threaded explicitly through every operation; the bcrypt collaborator is
modelled as an abstract hash record carrying the salt, the work factor and
the hashed input.  All service methods are sequential (spec section 5:
single-request-at-a-time business logic), so each one is a pure function
from the current table to the next table plus a result.
-/

/-- Model of the external bcrypt collaborator's hash output: an opaque
value determined by the salt, the cost (work factor) and the hashed input.
`bcrypt.hash(pw, salt)` with a salt from `bcrypt.genSalt()` (default cost
10) and `bcrypt.hash(pw, 10)` both produce such a value. -/
structure BcryptHash where
  salt : String
  rounds : Nat
  input : String
deriving Repr, DecidableEq

/-- Model of `bcrypt.hash`: records the salt, work factor and input. -/
def bcryptHash (input : String) (salt : String) (rounds : Nat) : BcryptHash :=
  { salt := salt, rounds := rounds, input := input }

/-- A value stored in a string-typed column: either a plain string stored
as-is, or the output of `bcrypt.hash`.  The TypeScript code stores both in
plain `string` columns; the tag records which one a given value is. -/
inductive StoredString where
  | raw (s : String)
  | hashed (h : BcryptHash)
deriving Repr, DecidableEq

/-- Model of `bcrypt.compare raw stored`: comparing against a genuine
bcrypt hash re-hashes `raw` with the recorded salt and cost and succeeds
exactly when the inputs coincide; comparing against a string that is not a
bcrypt hash fails. -/
def bcryptCompareStored (raw : String) : StoredString → Bool
  | .raw _ => false
  | .hashed h => raw == h.input

/-- Modelled from the spec: the `UserEntity` of
`src/app/modules/user/entities/user.entity.ts` (the entity file itself is
not in src).  Fields follow spec section 3 and their use in
`user.service.ts`: `id` integer, `userName`/`email` strings, `password` a
string column holding a salted hash, `refreshToken` a nullable string
column holding a hash, `createdAt` a creation timestamp.  `password` is an
`Option` because the service deletes the property from outbound objects
(`delete savedUser.password`); `none` models both JavaScript `undefined`
(deleted property) and SQL `NULL`. -/
structure UserEntity where
  id : Nat
  userName : String
  email : String
  password : Option StoredString
  refreshToken : Option StoredString
  createdAt : Nat
deriving Repr, DecidableEq

/-- Modelled from the spec: `CreateUserDto` (file not in src); spec section
4.2: creation requires `userName`, `email`, `password`. -/
structure CreateUserDto where
  userName : String
  email : String
  password : String
deriving Repr, DecidableEq

/-- Modelled from the spec: `UpdateUserDto` (file not in src); spec section
4.2: update accepts the same fields as creation but all optional.  `none`
models an absent key in the JSON merge patch. -/
structure UpdateUserDto where
  userName : Option String
  email : Option String
  password : Option String
deriving Repr, DecidableEq

/-- Modelled from the spec: DTO-level email validation ("syntactically
valid email", spec section 4.2).  Only the consequence that matters to the
service is modelled: a syntactically valid email contains an `@` and in
particular is not the empty string. -/
def validEmail (e : String) : Bool :=
  e.data.contains '@'

/-- The pagination DTO of `src/app/common/dto/pagination.dto.ts`: optional
`page` (validated integer, at least 1, default 1) and optional `limit`
(validated integer, at least 1, default 10).  It declares no `pageSize`
property. -/
structure PaginationDto where
  page : Option Nat
  limit : Option Nat
deriving Repr, DecidableEq

/-- The error kinds thrown by `user.service.ts`: `BadRequestException`,
`NotFoundException`, `UnauthorizedException`, each carrying a message. -/
inductive ServiceError where
  | badRequest (msg : String)
  | notFound (msg : String)
  | unauthorized (msg : String)
deriving Repr, DecidableEq

deriving instance DecidableEq for Except

/-- Insert a user into a list that is sorted by `createdAt` descending,
keeping it sorted; models the repository's `order: createdAt DESC`. -/
def insertDescByCreatedAt (u : UserEntity) : List UserEntity → List UserEntity
  | [] => [u]
  | v :: vs =>
    if v.createdAt ≤ u.createdAt then u :: v :: vs
    else v :: insertDescByCreatedAt u vs

/-- Sort the stored users by `createdAt` descending (newest first); models
the ordering applied by `findAndCount` in `findAll`. -/
def sortByCreatedAtDesc : List UserEntity → List UserEntity
  | [] => []
  | u :: us => insertDescByCreatedAt u (sortByCreatedAtDesc us)

/-- The result shape of `UserService.findAll`. -/
structure FindAllResult where
  items : List UserEntity
  total : Nat
  page : Nat
  pageSize : Nat
  totalPages : Nat
deriving Repr, DecidableEq

/-- The entity built and persisted by `UserService.create`: the DTO fields
with the password replaced by its salted hash, plus the repository-generated
id and creation timestamp. -/
def UserService.newUserEntity (userDto : CreateUserDto) (salt : String)
    (newId : Nat) (now : Nat) : UserEntity :=
  { id := newId
    userName := userDto.userName
    email := userDto.email
    password := some (.hashed (bcryptHash userDto.password salt 10))
    refreshToken := none
    createdAt := now }

/-- Embedding of `UserService.create` (user.service.ts lines 33-61).
The repository-generated values (fresh salt from `bcrypt.genSalt()`, whose
default cost is 10, the generated `id` and the `createdAt` timestamp) are
passed as explicit parameters.  Returns the new table and the saved user
with the `password` property deleted. -/
def UserService.create (databaseEnabled : Bool) (db : List UserEntity)
    (userDto : CreateUserDto) (salt : String) (newId : Nat) (now : Nat) :
    Except ServiceError (List UserEntity × UserEntity) :=
  if !databaseEnabled then
    .error (.badRequest "Database functionality is disabled")
  else
    match db.find? (fun u => u.email == userDto.email) with
    | some _ => .error (.badRequest "User with this email already exists")
    | none =>
      let user : UserEntity := UserService.newUserEntity userDto salt newId now
      -- `delete savedUser.password` strips the property from the returned
      -- object only; the persisted row keeps the hash.
      .ok (db ++ [user], { user with password := none })

/-- Embedding of `UserService.findAll` (user.service.ts lines 64-99).
The source destructures `const { page = 1, pageSize = 10 } = paginationDto`
but `PaginationDto` declares only `page` and `limit`, so reading
`paginationDto.pageSize` yields `undefined` and the destructuring default
10 always applies: the supplied `limit` is never read. -/
def UserService.findAll (db : List UserEntity) (paginationDto : PaginationDto) :
    FindAllResult :=
  let page := paginationDto.page.getD 1
  let pageSize := 10
  let skip := (page - 1) * pageSize
  let sorted := sortByCreatedAtDesc db
  let users := (sorted.drop skip).take pageSize
  let total := db.length
  let items := users.map (fun u => { u with password := none })
  { items := items
    total := total
    page := page
    pageSize := pageSize
    -- Math.ceil(total / pageSize) on naturals with pageSize = 10
    totalPages := (total + pageSize - 1) / pageSize }

/-- Embedding of `UserService.findOne` (user.service.ts lines 101-116):
lookup by email for the authentication path; the password is NOT stripped. -/
def UserService.findOne (db : List UserEntity) (email : String) :
    Except ServiceError UserEntity :=
  match db.find? (fun u => u.email == email) with
  | none => .error (.unauthorized "User not found with the provided email")
  | some user => .ok user

/-- Embedding of `UserService.findById` (user.service.ts lines 118-135):
lookup by id; `delete user.password` strips the password from the returned
object (the table itself is not written). -/
def UserService.findById (db : List UserEntity) (id : Nat) :
    Except ServiceError UserEntity :=
  match db.find? (fun u => u.id == id) with
  | none => .error (.notFound ("User with ID " ++ toString id ++ " not found"))
  | some user => .ok { user with password := none }

/-- The duplicate-email guard of `UserService.update`:
`if (updateUserDto.email && updateUserDto.email !== user.email)` followed by
a `findOneBy({ email })` existence check.  JavaScript truthiness: an absent
key and the empty string are both falsy, so neither triggers the check. -/
def UserService.updateDupEmail (db : List UserEntity) (user : UserEntity)
    (updateUserDto : UpdateUserDto) : Bool :=
  match updateUserDto.email with
  | some e => e != "" && e != user.email && (db.find? (fun u => u.email == e)).isSome
  | none => false

/-- The password transformation of `UserService.update`:
`if (updateUserDto.password) { updateUserDto.password = await bcrypt.hash(...) }`.
A present non-empty password is replaced by its hash (fresh salt, default
cost 10); a present empty password is falsy in JavaScript, so it is left as
the raw empty string; an absent password stays absent. -/
def UserService.updatePasswordPatch (updateUserDto : UpdateUserDto)
    (salt : String) : Option StoredString :=
  match updateUserDto.password with
  | some pw => if pw != "" then some (.hashed (bcryptHash pw salt 10)) else some (.raw pw)
  | none => none

/-- The row written by `save({ ...user, ...updateUserDto })` in
`UserService.update`.  `user` is the object returned by `findById`, whose
`password` property was deleted, so the merged object carries a `password`
key only when the patch does; the SQL UPDATE leaves the password column of
the row untouched otherwise.  All other columns are written from the merged
object (`id`, `refreshToken`, `createdAt` come from `user`, `userName` and
`email` from the patch when present, else from `user`). -/
def UserService.updateRow (user : UserEntity) (updateUserDto : UpdateUserDto)
    (salt : String) (u : UserEntity) : UserEntity :=
  if u.id == user.id then
    { id := user.id
      userName := updateUserDto.userName.getD user.userName
      email := updateUserDto.email.getD user.email
      password :=
        match UserService.updatePasswordPatch updateUserDto salt with
        | some p => some p
        | none => u.password
      refreshToken := user.refreshToken
      createdAt := user.createdAt }
  else u

/-- Embedding of `UserService.update` (user.service.ts lines 137-176):
loads the user via `findById`, re-checks email uniqueness when the email is
being changed, hashes a present password with a fresh salt, saves the
merged object, and returns it with the password property deleted. -/
def UserService.update (db : List UserEntity) (id : Nat)
    (updateUserDto : UpdateUserDto) (salt : String) :
    Except ServiceError (List UserEntity × UserEntity) :=
  match UserService.findById db id with
  | .error e => .error e
  | .ok user =>
    if UserService.updateDupEmail db user updateUserDto then
      .error (.badRequest "Email is already in use")
    else
      let db2 := db.map (UserService.updateRow user updateUserDto salt)
      let updatedUser : UserEntity :=
        { id := user.id
          userName := updateUserDto.userName.getD user.userName
          email := updateUserDto.email.getD user.email
          -- delete updatedUser.password
          password := none
          refreshToken := user.refreshToken
          createdAt := user.createdAt }
      .ok (db2, updatedUser)

/-- Embedding of `UserService.remove` (user.service.ts lines 177-191):
`repository.delete(id)` removes the matching rows first; if the affected
row count is zero the service throws `NotFoundException`.  Returns the
table after the delete together with the outcome. -/
def UserService.remove (db : List UserEntity) (id : Nat) :
    List UserEntity × Except ServiceError Unit :=
  let remaining := db.filter (fun u => u.id != id)
  let affected := db.length - remaining.length
  if affected == 0 then
    (remaining, .error (.notFound ("User with ID " ++ toString id ++ " not found")))
  else
    (remaining, .ok ())

/-- Embedding of `UserService.updateRefreshToken` (user.service.ts lines
193-210): hashes the raw token with `bcrypt.hash(refreshToken, 10)` (work
factor fixed at 10, fresh internal salt passed explicitly) and issues
`repository.update({ id: userId }, { refreshToken: hash })`; the affected
row count is never inspected. -/
def UserService.updateRefreshToken (db : List UserEntity) (userId : Nat)
    (refreshToken : String) (salt : String) :
    List UserEntity × Except ServiceError Unit :=
  let hashedRefreshToken := bcryptHash refreshToken salt 10
  (db.map (fun u =>
      if u.id == userId then { u with refreshToken := some (.hashed hashedRefreshToken) }
      else u),
   .ok ())

/-- Embedding of `UserService.removeRefreshToken` (user.service.ts lines
212-220): `repository.update({ id: userId }, { refreshToken: null })`; the
affected row count is never inspected. -/
def UserService.removeRefreshToken (db : List UserEntity) (userId : Nat) :
    List UserEntity × Except ServiceError Unit :=
  (db.map (fun u => if u.id == userId then { u with refreshToken := none } else u),
   .ok ())

/-- Sample stored user: no refresh token. -/
def aliceUser : UserEntity :=
  { id := 1
    userName := "alice"
    email := "alice@example.com"
    password := some (.hashed (bcryptHash "alicepw" "saltA" 10))
    refreshToken := none
    createdAt := 10 }

/-- Sample stored user: holds a hashed refresh token. -/
def bobUser : UserEntity :=
  { id := 2
    userName := "bob"
    email := "bob@example.com"
    password := some (.hashed (bcryptHash "bobpw" "saltB" 10))
    refreshToken := some (.hashed (bcryptHash "bobtoken" "saltR" 10))
    createdAt := 20 }

/-- Sample table with two users. -/
def sampleDb : List UserEntity :=
  [aliceUser, bobUser]

/-- A table of six stored users, for exercising pagination. -/
def sixUsers : List UserEntity :=
  (List.range 6).map (fun i =>
    { id := i + 1
      userName := "user" ++ toString (i + 1)
      email := "user" ++ toString (i + 1) ++ "@example.com"
      password := some (.hashed (bcryptHash ("pw" ++ toString (i + 1)) "s" 10))
      refreshToken := none
      createdAt := i + 1 })

/-- Creation input used by concrete witnesses. -/
def carolDto : CreateUserDto :=
  { userName := "carol", email := "carol@example.com", password := "carolpw" }

/-- The entity persisted by a successful create of `carolDto` with salt
`sC`, generated id 3 and timestamp 30. -/
def carolEntity : UserEntity :=
  { id := 3
    userName := "carol"
    email := "carol@example.com"
    password := some (.hashed (bcryptHash "carolpw" "sC" 10))
    refreshToken := none
    createdAt := 30 }

/-- A merge patch used by concrete witnesses: rename the user to bobby,
touching neither email nor password. -/
def bobbyPatch : UpdateUserDto :=
  { userName := some "bobby", email := none, password := none }

/-- The table produced by applying `bobbyPatch` to user 2 of `sampleDb`. -/
def bobbyDb : List UserEntity :=
  [aliceUser, { bobUser with userName := "bobby" }]

/-- The view returned by applying `bobbyPatch` to user 2 of `sampleDb`. -/
def bobbyView : UserEntity :=
  { id := 2
    userName := "bobby"
    email := "bob@example.com"
    password := none
    refreshToken := bobUser.refreshToken
    createdAt := 20 }

/-- The table produced by changing alice's password to `newpass`. -/
def alicePwDb : List UserEntity :=
  [{ aliceUser with password := some (.hashed (bcryptHash "newpass" "sP" 10)) }, bobUser]

/-- The view returned by changing alice's password. -/
def alicePwView : UserEntity :=
  { aliceUser with password := none }

/-- A merge patch used by concrete witnesses: change the email only. -/
def davePatch : UpdateUserDto :=
  { userName := none, email := some "dave@example.com", password := none }

/-- The table produced by applying `davePatch` to user 2 of `sampleDb`. -/
def daveDb : List UserEntity :=
  [aliceUser, { bobUser with email := "dave@example.com" }]

/-- The view returned by applying `davePatch` to user 2 of `sampleDb`. -/
def daveView : UserEntity :=
  { id := 2
    userName := "bob"
    email := "dave@example.com"
    password := none
    refreshToken := bobUser.refreshToken
    createdAt := 20 }

/-! Helper lemmas shared by the claim theorems. -/

/-- In a table with pairwise distinct ids, the row found by id is the only
row carrying that id. -/
theorem find_id_unique (db : List UserEntity) (i : Nat) (t : UserEntity)
    (hp : db.Pairwise (fun a b => a.id ≠ b.id))
    (hf : db.find? (fun u => u.id == i) = some t) :
    ∀ u ∈ db, u.id = i → u = t := by
  induction db with
  | nil => simp at hf
  | cons v vs ih =>
    rw [List.pairwise_cons] at hp
    intro u hu hui
    rcases List.mem_cons.mp hu with rfl | hu2
    · rw [List.find?_cons_of_pos _ (by simpa using hui)] at hf
      injection hf
    · by_cases hv : v.id = i
      · rw [List.find?_cons_of_pos _ (by simpa using hv)] at hf
        injection hf with hvt
        exact absurd (hv.trans hui.symm) (hp.1 u hu2)
      · rw [List.find?_cons_of_neg _ (by simpa using hv)] at hf
        exact ih hp.2 hf u hu2 hui

/-- Inversion of a successful `UserService.update`: the duplicate-email
guard was false, the new table is the row-wise update, and the returned
view is the merged object with the password property deleted. -/
theorem update_ok_inv (db db2 : List UserEntity) (id : Nat)
    (udto : UpdateUserDto) (salt : String) (v orig : UserEntity)
    (hfind : db.find? (fun u => u.id == id) = some orig)
    (h : UserService.update db id udto salt = .ok (db2, v)) :
    UserService.updateDupEmail db { orig with password := none } udto = false ∧
    db2 = db.map (UserService.updateRow { orig with password := none } udto salt) ∧
    v = { id := orig.id
          userName := udto.userName.getD orig.userName
          email := udto.email.getD orig.email
          password := none
          refreshToken := orig.refreshToken
          createdAt := orig.createdAt } := by
  simp only [UserService.update, UserService.findById, hfind] at h
  by_cases hdup :
      UserService.updateDupEmail db { orig with password := none } udto = true
  · rw [if_pos hdup] at h
    cases h
  · rw [if_neg hdup] at h
    rw [Except.ok.injEq, Prod.mk.injEq] at h
    exact ⟨by simpa using hdup, h.1.symm, h.2.symm⟩

/-- A successful `UserService.update` found a row with the requested id. -/
theorem update_ok_found (db db2 : List UserEntity) (id : Nat)
    (udto : UpdateUserDto) (salt : String) (v : UserEntity)
    (h : UserService.update db id udto salt = .ok (db2, v)) :
    ∃ orig, db.find? (fun u => u.id == id) = some orig := by
  unfold UserService.update UserService.findById at h
  cases hfind : db.find? (fun u => u.id == id) with
  | none => rw [hfind] at h; cases h
  | some orig => exact ⟨orig, rfl⟩

/-- A successful create on a table whose email lookup misses appends the
hashed entity and returns it with the password property deleted. -/
theorem create_ok_of_find_none (db : List UserEntity) (cdto : CreateUserDto)
    (salt : String) (newId now : Nat)
    (hnone : db.find? (fun u => u.email == cdto.email) = none) :
    UserService.create true db cdto salt newId now =
      .ok (db ++ [UserService.newUserEntity cdto salt newId now],
           { UserService.newUserEntity cdto salt newId now with password := none }) := by
  simp [UserService.create, hnone]

/-- A successful create on a table containing no row with the requested
email appends the hashed entity and returns it with the password property
deleted. -/
theorem create_fresh_ok (db : List UserEntity) (cdto : CreateUserDto)
    (salt : String) (newId now : Nat)
    (hfresh : db.all (fun u => u.email != cdto.email) = true) :
    UserService.create true db cdto salt newId now =
      .ok (db ++ [UserService.newUserEntity cdto salt newId now],
           { UserService.newUserEntity cdto salt newId now with password := none }) := by
  refine create_ok_of_find_none db cdto salt newId now ?_
  refine List.find?_eq_none.mpr ?_
  intro x hx
  have := List.all_eq_true.mp hfresh x hx
  simpa using this

/-- A row whose id differs from the loaded user's id is untouched by the
update write. -/
theorem updateRow_untouched (user : UserEntity) (udto : UpdateUserDto)
    (salt : String) (u : UserEntity) (h : u.id ≠ user.id) :
    UserService.updateRow user udto salt u = u := by
  unfold UserService.updateRow
  rw [if_neg (by simpa using h)]

/-- The email column written to the targeted row is the patch email when
present, else the loaded user's email. -/
theorem updateRow_email_target (user : UserEntity) (udto : UpdateUserDto)
    (salt : String) (u : UserEntity) (h : u.id = user.id) :
    (UserService.updateRow user udto salt u).email = udto.email.getD user.email := by
  unfold UserService.updateRow
  rw [if_pos (by simpa using h)]

/-- The by-id lookup on a table whose `find?` returns a row yields that
row with the password property deleted. -/
theorem findById_found (db : List UserEntity) (id : Nat) (orig : UserEntity)
    (hfind : db.find? (fun u => u.id == id) = some orig) :
    UserService.findById db id = .ok { orig with password := none } := by
  simp [UserService.findById, hfind]

/-- Every item of a `findAll` result has its password field stripped. -/
theorem findAll_items_password_none (db : List UserEntity) (dto : PaginationDto) :
    (UserService.findAll db dto).items.all (fun y => y.password == none) = true := by
  simp only [UserService.findAll, List.all_eq_true]
  intro y hy
  rcases List.mem_map.mp hy with ⟨u, hu, rfl⟩
  rfl

/-- Membership in a descending-order insertion comes from the inserted
element or the original list. -/
theorem mem_insertDescByCreatedAt (u x : UserEntity) (l : List UserEntity)
    (hx : x ∈ insertDescByCreatedAt u l) : x = u ∨ x ∈ l := by
  induction l with
  | nil => exact Or.inl (by simpa [insertDescByCreatedAt] using hx)
  | cons v vs ih =>
    unfold insertDescByCreatedAt at hx
    by_cases h : v.createdAt ≤ u.createdAt
    · rw [if_pos h] at hx
      rcases List.mem_cons.mp hx with rfl | hx2
      · exact Or.inl rfl
      · exact Or.inr hx2
    · rw [if_neg h] at hx
      rcases List.mem_cons.mp hx with rfl | hx2
      · exact Or.inr (List.mem_cons_self _ _)
      · rcases ih hx2 with h3 | h3
        · exact Or.inl h3
        · exact Or.inr (List.mem_cons_of_mem _ h3)

/-- The `createdAt DESC` ordering returns rows of the stored table. -/
theorem mem_sortByCreatedAtDesc (x : UserEntity) (l : List UserEntity)
    (hx : x ∈ sortByCreatedAtDesc l) : x ∈ l := by
  induction l with
  | nil => simp [sortByCreatedAtDesc] at hx
  | cons v vs ih =>
    unfold sortByCreatedAtDesc at hx
    rcases mem_insertDescByCreatedAt v x (sortByCreatedAtDesc vs) hx with rfl | hx2
    · exact List.mem_cons_self _ _
    · exact List.mem_cons_of_mem _ (ih hx2)

/-- Every item of a `findAll` result is a stored row with exactly the
password property deleted; in particular the stored refreshToken field is
returned unchanged. -/
theorem findAll_items_strip_only_password (db : List UserEntity)
    (dto : PaginationDto) :
    ∀ y ∈ (UserService.findAll db dto).items,
      ∃ u ∈ db, y = { u with password := none } ∧
        y.refreshToken = u.refreshToken := by
  intro y hy
  simp only [UserService.findAll] at hy
  rcases List.mem_map.mp hy with ⟨u, hu, rfl⟩
  have h1 : u ∈ (sortByCreatedAtDesc db).drop ((dto.page.getD 1 - 1) * 10) :=
    List.take_subset _ _ hu
  have h2 : u ∈ sortByCreatedAtDesc db := List.drop_subset _ _ h1
  exact ⟨u, mem_sortByCreatedAtDesc u db h2, rfl, rfl⟩

/-- Rows produced by a conditional refresh-token rewrite: every row of the
result that carries the targeted id holds the written value. -/
theorem map_refreshToken_write (db : List UserEntity) (userId : Nat)
    (r : Option StoredString) :
    ∀ u2 ∈ db.map (fun u => if u.id == userId then { u with refreshToken := r } else u),
      u2.id = userId → u2.refreshToken = r := by
  intro u2 hu2 hid
  rcases List.mem_map.mp hu2 with ⟨u, hu, rfl⟩
  by_cases h : u.id = userId
  · simp [h]
  · rw [if_neg (show ¬((u.id == userId) = true) by simpa using h)] at hid
    exact absurd hid h

/-! Claim theorems. -/

/-- C1 (code bug witnessed at the failing input): `findAll` destructures
`pageSize` from the pagination DTO, but `PaginationDto` declares only
`page` and `limit`, so the supplied limit is silently ignored and the page
size is always 10.  On a table of six users, `findAll` with page 1 and
limit 5 returns all six items, reports `pageSize = 10` and `totalPages = 1`,
whereas the claim requires exactly 5 items, `pageSize = 5` and
`totalPages = 2`. -/
theorem findAll_ignores_supplied_limit :
    (UserService.findAll sixUsers { page := some 1, limit := some 5 }).items.length = 6 ∧
    (UserService.findAll sixUsers { page := some 1, limit := some 5 }).pageSize = 10 ∧
    (UserService.findAll sixUsers { page := some 1, limit := some 5 }).totalPages = 1 := by
  decide

/-- C8: `remove` fails with the by-id NotFound error exactly when the
delete affects zero rows, i.e. when no stored user carries the id, and in
that case the table is returned unchanged; on a present id it succeeds and
a subsequent `findById` on the resulting table fails with NotFound. -/
theorem remove_notFound_semantics (db : List UserEntity) (id : Nat) :
    (db.all (fun u => u.id != id) = true →
      UserService.remove db id =
        (db, .error (.notFound ("User with ID " ++ toString id ++ " not found")))) ∧
    (db.any (fun u => u.id == id) = true →
      (UserService.remove db id).2 = .ok () ∧
      UserService.findById (UserService.remove db id).1 id =
        .error (.notFound ("User with ID " ++ toString id ++ " not found"))) := by
  constructor
  · intro hall
    have hfilter : db.filter (fun u => u.id != id) = db :=
      List.filter_eq_self.mpr (by simpa [List.all_eq_true] using hall)
    simp [UserService.remove, hfilter]
  · intro hany
    have hex : ∃ u ∈ db, (u.id == id) = true := by
      simpa [List.any_eq_true] using hany
    have hlt : (db.filter (fun u => u.id != id)).length < db.length := by
      refine List.length_filter_lt_length_iff_exists.mpr ?_
      rcases hex with ⟨u, hu, hid⟩
      exact ⟨u, hu, by simpa using hid⟩
    have haff : (db.length - (db.filter (fun u => u.id != id)).length == 0) = false := by
      simp only [beq_eq_false_iff_ne, ne_eq, Nat.sub_eq_zero_iff_le, not_le]
      exact hlt
    have hnone : (db.filter (fun u => u.id != id)).find? (fun u => u.id == id) = none := by
      refine List.find?_eq_none.mpr ?_
      intro x hx
      have := List.of_mem_filter hx
      simpa using this
    constructor
    · simp [UserService.remove, haff]
    · simp [UserService.remove, UserService.findById, haff, hnone]

/-- C9: `updateRefreshToken` stores the bcrypt hash of the raw token,
computed with the fixed work factor 10 (never the raw token itself), and
the composition with `removeRefreshToken` leaves the stored refresh-token
field of that user null. -/
theorem refreshToken_hash_and_lifecycle (db : List UserEntity) (userId : Nat)
    (token salt : String) :
    (∀ u2 ∈ (UserService.updateRefreshToken db userId token salt).1,
       u2.id = userId →
         u2.refreshToken = some (.hashed (bcryptHash token salt 10))) ∧
    (∀ u2 ∈ (UserService.removeRefreshToken
               (UserService.updateRefreshToken db userId token salt).1 userId).1,
       u2.id = userId → u2.refreshToken = none) := by
  exact ⟨map_refreshToken_write db userId (some (.hashed (bcryptHash token salt 10))),
         map_refreshToken_write
           ((UserService.updateRefreshToken db userId token salt).1) userId none⟩

/-- C10: the refresh-token operations never inspect the affected-row count,
so for every userId they complete successfully, while `remove` on a userId
matching no stored user fails with NotFound. -/
theorem refresh_ops_never_notFound (db : List UserEntity) (userId : Nat)
    (token salt : String) :
    ((UserService.updateRefreshToken db userId token salt).2 = .ok () ∧
     (UserService.removeRefreshToken db userId).2 = .ok ()) ∧
    (db.all (fun u => u.id != userId) = true →
      (UserService.remove db userId).2 =
        .error (.notFound ("User with ID " ++ toString userId ++ " not found"))) := by
  refine ⟨⟨rfl, rfl⟩, ?_⟩
  intro hall
  have hfilter : db.filter (fun u => u.id != userId) = db :=
    List.filter_eq_self.mpr (by simpa [List.all_eq_true] using hall)
  unfold UserService.remove
  rw [hfilter]
  simp

/-- C2 counterexample: at a concrete stored user holding a hashed refresh
token, `findById` returns a representation that still contains the hashed
refreshToken field, contradicting the claim that the returned
representation contains neither the hashed password nor the hashed
refreshToken. -/
theorem findById_returns_stored_refreshToken :
    (UserService.findById sampleDb 2).toOption.map (fun u => u.refreshToken) =
      some (some (.hashed (bcryptHash "bobtoken" "saltR" 10))) ∧
    (UserService.findById sampleDb 2).toOption.map (fun u => u.refreshToken) ≠
      some none := by
  decide

/-- C2 amended: for every stored user and every public operation other
than `findOne`, the returned representation contains no password field,
and `create` returns no refresh token (the fresh entity has none); however
only the password is stripped — `findById`, `findAll` and `update` return
the stored hashed refreshToken field unchanged. -/
theorem only_password_stripped (db db2 : List UserEntity)
    (cdto : CreateUserDto) (udto : UpdateUserDto) (dto : PaginationDto)
    (salt1 salt2 : String) (newId now id uid : Nat)
    (x w orig origU : UserEntity)
    (hfresh : db.all (fun u => u.email != cdto.email) = true)
    (hfind : db.find? (fun u => u.id == id) = some orig)
    (hfb : UserService.findById db id = .ok x)
    (hfindU : db.find? (fun u => u.id == uid) = some origU)
    (hu : UserService.update db uid udto salt2 = .ok (db2, w)) :
    (UserService.create true db cdto salt1 newId now).toOption.map
        (fun p => (p.2.password, p.2.refreshToken)) = some (none, none) ∧
    (UserService.findAll db dto).items.all (fun y => y.password == none) = true ∧
    (∀ y ∈ (UserService.findAll db dto).items,
       ∃ u ∈ db, y = { u with password := none } ∧
         y.refreshToken = u.refreshToken) ∧
    x.password = none ∧ x.refreshToken = orig.refreshToken ∧
    w.password = none ∧ w.refreshToken = origU.refreshToken := by
  have hc := create_fresh_ok db cdto salt1 newId now hfresh
  have hx : x = { orig with password := none } := by
    rw [findById_found db id orig hfind] at hfb
    injection hfb with h
    exact h.symm
  obtain ⟨-, -, hv⟩ := update_ok_inv db db2 uid udto salt2 w origU hfindU hu
  refine ⟨by rw [hc]; rfl, findAll_items_password_none db dto,
    findAll_items_strip_only_password db dto, ?_, ?_, ?_, ?_⟩
  · rw [hx]
  · rw [hx]
  · rw [hv]
  · rw [hv]

/-- C2 amended, witnessed at a concrete table: create of carol, the first
findAll page, findById of alice and the bobby rename of bob all strip the
password, while findById and update pass bob's stored refresh token
through. -/
theorem only_password_stripped_witness :
    (UserService.create true sampleDb carolDto "sC" 3 30).toOption.map
        (fun p => (p.2.password, p.2.refreshToken)) = some (none, none) ∧
    (UserService.findAll sampleDb { page := some 1, limit := some 10 }).items.all
        (fun y => y.password == none) = true ∧
    (∀ y ∈ (UserService.findAll sampleDb { page := some 1, limit := some 10 }).items,
       ∃ u ∈ sampleDb, y = { u with password := none } ∧
         y.refreshToken = u.refreshToken) ∧
    ({ aliceUser with password := none } : UserEntity).password = none ∧
    ({ aliceUser with password := none } : UserEntity).refreshToken =
      aliceUser.refreshToken ∧
    bobbyView.password = none ∧ bobbyView.refreshToken = bobUser.refreshToken :=
  only_password_stripped sampleDb bobbyDb carolDto bobbyPatch
    { page := some 1, limit := some 10 } "sC" "sU" 3 30 1 2
    { aliceUser with password := none } bobbyView aliceUser bobUser
    (by decide) (by decide) (by decide) (by decide) (by decide)

/-- C4: for every valid creation input whose email is not stored, create
succeeds and the returned object has no password field; likewise the items
of findAll, the user returned by findById and the user returned by update
have no password field. -/
theorem no_password_in_outbound (db db2 : List UserEntity)
    (cdto : CreateUserDto) (udto : UpdateUserDto) (dto : PaginationDto)
    (salt1 salt2 : String) (newId now pid uid : Nat) (x w : UserEntity)
    (hfresh : db.all (fun u => u.email != cdto.email) = true)
    (hfb : UserService.findById db pid = .ok x)
    (hu : UserService.update db uid udto salt2 = .ok (db2, w)) :
    (UserService.create true db cdto salt1 newId now).toOption.map
        (fun p => p.2.password) = some none ∧
    (UserService.findAll db dto).items.all (fun y => y.password == none) = true ∧
    x.password = none ∧ w.password = none := by
  have hc := create_fresh_ok db cdto salt1 newId now hfresh
  have hx : x.password = none := by
    cases hfind : db.find? (fun u => u.id == pid) with
    | none => simp [UserService.findById, hfind] at hfb
    | some orig =>
      rw [findById_found db pid orig hfind] at hfb
      injection hfb with h
      rw [← h]
  have hw : w.password = none := by
    cases hfindU : db.find? (fun u => u.id == uid) with
    | none => simp [UserService.update, UserService.findById, hfindU] at hu
    | some origU =>
      obtain ⟨-, -, hv⟩ := update_ok_inv db db2 uid udto salt2 w origU hfindU hu
      rw [hv]
  exact ⟨by rw [hc]; rfl, findAll_items_password_none db dto, hx, hw⟩

/-- C4, witnessed at a concrete table. -/
theorem no_password_in_outbound_witness :
    (UserService.create true sampleDb carolDto "sC" 3 30).toOption.map
        (fun p => p.2.password) = some none ∧
    (UserService.findAll sampleDb { page := some 1, limit := some 10 }).items.all
        (fun y => y.password == none) = true ∧
    ({ aliceUser with password := none } : UserEntity).password = none ∧
    bobbyView.password = none :=
  no_password_in_outbound sampleDb bobbyDb carolDto bobbyPatch
    { page := some 1, limit := some 10 } "sC" "sU" 3 30 1 2
    { aliceUser with password := none } bobbyView
    (by decide) (by decide) (by decide)

/-- C5: creating a user whose email is already stored fails with the
duplicate-email error, and in the two-sequential-creates scenario the
first create (fresh email) succeeds while the second create with the same
email fails with the duplicate-email error. -/
theorem create_duplicate_email (db : List UserEntity) (c1 c2 c3 : CreateUserDto)
    (salt1 salt2 salt3 : String) (nid1 nid2 nid3 t1 t2 t3 : Nat)
    (hdup : db.any (fun u => u.email == c3.email) = true)
    (hfresh : db.all (fun u => u.email != c1.email) = true)
    (hsame : c2.email = c1.email) :
    UserService.create true db c3 salt3 nid3 t3 =
      .error (.badRequest "User with this email already exists") ∧
    (UserService.create true db c1 salt1 nid1 t1).toOption.map
        (fun p => UserService.create true p.1 c2 salt2 nid2 t2) =
      some (.error (.badRequest "User with this email already exists")) := by
  constructor
  · have hex : ∃ u ∈ db, (u.email == c3.email) = true := by
      simpa [List.any_eq_true] using hdup
    have hsome : (db.find? (fun u => u.email == c3.email)).isSome :=
      List.find?_isSome.mpr (by simpa using hex)
    rcases Option.isSome_iff_exists.mp hsome with ⟨u, hu⟩
    simp [UserService.create, hu]
  · rw [create_fresh_ok db c1 salt1 nid1 t1 hfresh]
    have hnone : db.find? (fun u => u.email == c2.email) = none := by
      refine List.find?_eq_none.mpr ?_
      intro x hx
      have := List.all_eq_true.mp hfresh x hx
      rw [hsame]
      simpa using this
    have happ :
        (db ++ [UserService.newUserEntity c1 salt1 nid1 t1]).find?
            (fun u => u.email == c2.email) =
          some (UserService.newUserEntity c1 salt1 nid1 t1) := by
      rw [List.find?_append, hnone]
      simp [hsame, UserService.newUserEntity]
    have hstep :
        UserService.create true (db ++ [UserService.newUserEntity c1 salt1 nid1 t1])
            c2 salt2 nid2 t2 =
          .error (.badRequest "User with this email already exists") := by
      simp [UserService.create, happ]
    show some (UserService.create true
        (db ++ [UserService.newUserEntity c1 salt1 nid1 t1]) c2 salt2 nid2 t2) = _
    rw [hstep]

/-- C5, witnessed at a concrete table: creating a second alice fails, and
creating carol then creating carol again fails the second time. -/
theorem create_duplicate_email_witness :
    UserService.create true sampleDb
        { userName := "mallory", email := "alice@example.com", password := "mpw" }
        "sM" 4 40 =
      .error (.badRequest "User with this email already exists") ∧
    (UserService.create true sampleDb carolDto "sC" 3 30).toOption.map
        (fun p => UserService.create true p.1
          { userName := "carol2", email := "carol@example.com", password := "c2pw" }
          "sC2" 4 40) =
      some (.error (.badRequest "User with this email already exists")) :=
  create_duplicate_email sampleDb carolDto
    { userName := "carol2", email := "carol@example.com", password := "c2pw" }
    { userName := "mallory", email := "alice@example.com", password := "mpw" }
    "sC" "sC2" "sM" 3 4 4 30 40 40 (by decide) (by decide) rfl

/-- C8, witnessed at a concrete table: removing the absent id 7 fails with
NotFound and leaves the table unchanged; removing the present id 2
succeeds and a subsequent findById of 2 fails with NotFound. -/
theorem remove_notFound_semantics_witness :
    UserService.remove sampleDb 7 =
      (sampleDb, .error (.notFound ("User with ID " ++ toString 7 ++ " not found"))) ∧
    ((UserService.remove sampleDb 2).2 = .ok () ∧
     UserService.findById (UserService.remove sampleDb 2).1 2 =
       .error (.notFound ("User with ID " ++ toString 2 ++ " not found"))) :=
  ⟨(remove_notFound_semantics sampleDb 7).1 (by decide),
   (remove_notFound_semantics sampleDb 2).2 (by decide)⟩

/-- C9, witnessed at a concrete table: after storing a hash of the new
token for alice the stored field holds that hash with work factor 10, and
after the subsequent removal it is null. -/
theorem refreshToken_hash_and_lifecycle_witness :
    ({ aliceUser with
        refreshToken := some (.hashed (bcryptHash "newtoken" "saltN" 10)) } :
      UserEntity).refreshToken =
        some (.hashed (bcryptHash "newtoken" "saltN" 10)) ∧
    ({ aliceUser with refreshToken := none } : UserEntity).refreshToken = none :=
  ⟨(refreshToken_hash_and_lifecycle sampleDb 1 "newtoken" "saltN").1
      { aliceUser with
          refreshToken := some (.hashed (bcryptHash "newtoken" "saltN" 10)) }
      (by decide) rfl,
   (refreshToken_hash_and_lifecycle sampleDb 1 "newtoken" "saltN").2
      { aliceUser with refreshToken := none } (by decide) rfl⟩

/-- C10, witnessed at a concrete table: both refresh-token operations on
the absent id 9 complete successfully while remove on the same id fails
with NotFound. -/
theorem refresh_ops_never_notFound_witness :
    ((UserService.updateRefreshToken sampleDb 9 "tok" "s9").2 = .ok () ∧
     (UserService.removeRefreshToken sampleDb 9).2 = .ok ()) ∧
    (UserService.remove sampleDb 9).2 =
      .error (.notFound ("User with ID " ++ toString 9 ++ " not found")) :=
  ⟨(refresh_ops_never_notFound sampleDb 9 "tok" "s9").1,
   (refresh_ops_never_notFound sampleDb 9 "tok" "s9").2 (by decide)⟩

/-- C6: update has merge-patch semantics.  For every existing user and
every patch, rows with other ids are untouched, and the written row keeps
its id, creation time, refresh token and every field the patch does not
carry (in particular the stored password hash when the patch has no
password), while fields present in the patch take the patched values. -/
theorem update_merge_patch (db db2 : List UserEntity) (id : Nat)
    (udto : UpdateUserDto) (salt : String) (v orig : UserEntity)
    (hfind : db.find? (fun u => u.id == id) = some orig)
    (hupd : UserService.update db id udto salt = .ok (db2, v)) :
    (∀ u ∈ db, u.id ≠ orig.id → u ∈ db2) ∧
    ∃ u2 ∈ db2,
      u2.id = orig.id ∧
      u2.createdAt = orig.createdAt ∧
      u2.refreshToken = orig.refreshToken ∧
      (udto.userName = none → u2.userName = orig.userName) ∧
      (udto.email = none → u2.email = orig.email) ∧
      (udto.password = none → u2.password = orig.password) ∧
      (∀ nm, udto.userName = some nm → u2.userName = nm) ∧
      (∀ e, udto.email = some e → u2.email = e) := by
  obtain ⟨hdup, hdb2, hv⟩ := update_ok_inv db db2 id udto salt v orig hfind hupd
  subst hdb2
  constructor
  · intro u hu hne
    rw [← updateRow_untouched { orig with password := none } udto salt u hne]
    exact List.mem_map_of_mem _ hu
  · refine ⟨UserService.updateRow { orig with password := none } udto salt orig,
      List.mem_map_of_mem _ (List.mem_of_find?_eq_some hfind), ?_⟩
    unfold UserService.updateRow
    rw [if_pos (by simp)]
    refine ⟨rfl, rfl, rfl, ?_, ?_, ?_, ?_, ?_⟩
    · intro h
      rw [h]
      rfl
    · intro h
      rw [h]
      rfl
    · intro h
      simp [UserService.updatePasswordPatch, h]
    · intro nm h
      rw [h]
      rfl
    · intro e h
      rw [h]
      rfl

/-- C6, witnessed at a concrete table: renaming bob leaves alice in place
and leaves bob's id, email, password hash, refresh token and creation time
unchanged while the userName takes the patched value. -/
theorem update_merge_patch_witness :
    (∀ u ∈ sampleDb, u.id ≠ bobUser.id → u ∈ bobbyDb) ∧
    ∃ u2 ∈ bobbyDb,
      u2.id = bobUser.id ∧
      u2.createdAt = bobUser.createdAt ∧
      u2.refreshToken = bobUser.refreshToken ∧
      (bobbyPatch.userName = none → u2.userName = bobUser.userName) ∧
      (bobbyPatch.email = none → u2.email = bobUser.email) ∧
      (bobbyPatch.password = none → u2.password = bobUser.password) ∧
      (∀ nm, bobbyPatch.userName = some nm → u2.userName = nm) ∧
      (∀ e, bobbyPatch.email = some e → u2.email = e) :=
  update_merge_patch sampleDb bobbyDb 2 bobbyPatch "sU" bobbyView bobUser
    (by decide) (by decide)

/-- C7: updating the password re-hashes it with the fresh salt generated
for the call: afterwards the row carrying the id stores exactly the hash
of the new password with that salt (work factor 10), the new raw password
verifies against it, the old raw password does not, and the returned view
has no password field. -/
theorem update_password_rehash (db db2 : List UserEntity) (id : Nat)
    (oldpw newpw salt : String) (v : UserEntity)
    (hne : oldpw ≠ newpw) (hnp : newpw ≠ "")
    (hupd : UserService.update db id
        { userName := none, email := none, password := some newpw } salt =
      .ok (db2, v)) :
    v.password = none ∧
    ∀ u2 ∈ db2, u2.id = id →
      u2.password = some (.hashed (bcryptHash newpw salt 10)) ∧
      bcryptCompareStored newpw (.hashed (bcryptHash newpw salt 10)) = true ∧
      bcryptCompareStored oldpw (.hashed (bcryptHash newpw salt 10)) = false := by
  obtain ⟨orig, hfind⟩ := update_ok_found db db2 id _ salt v hupd
  obtain ⟨hdup, hdb2, hv⟩ := update_ok_inv db db2 id _ salt v orig hfind hupd
  have horigid : orig.id = id := by simpa using List.find?_some hfind
  have hcmp1 : bcryptCompareStored newpw (.hashed (bcryptHash newpw salt 10)) = true := by
    simp [bcryptCompareStored, bcryptHash]
  have hcmp2 : bcryptCompareStored oldpw (.hashed (bcryptHash newpw salt 10)) = false := by
    simp only [bcryptCompareStored, bcryptHash]
    exact beq_eq_false_iff_ne.mpr hne
  constructor
  · rw [hv]
  · subst hdb2
    intro u2 hu2 hid
    rcases List.mem_map.mp hu2 with ⟨u, hu, rfl⟩
    by_cases h : u.id = orig.id
    · refine ⟨?_, hcmp1, hcmp2⟩
      unfold UserService.updateRow
      rw [if_pos (by simpa using h)]
      simp [UserService.updatePasswordPatch, hnp]
    · exfalso
      rw [updateRow_untouched { orig with password := none } _ _ u
            (by simpa using h)] at hid
      exact h (hid.trans horigid.symm)

/-- C7, witnessed at a concrete table: changing alice's stored password to
newpass leaves a hash the old raw password no longer verifies against
while the new one does, and the view carries no password. -/
theorem update_password_rehash_witness :
    alicePwView.password = none ∧
    ∀ u2 ∈ alicePwDb, u2.id = 1 →
      u2.password = some (.hashed (bcryptHash "newpass" "sP" 10)) ∧
      bcryptCompareStored "newpass" (.hashed (bcryptHash "newpass" "sP" 10)) = true ∧
      bcryptCompareStored "alicepw" (.hashed (bcryptHash "newpass" "sP" 10)) = false :=
  update_password_rehash sampleDb alicePwDb 1 "alicepw" "newpass" "sP" alicePwView
    (by decide) (by decide) (by decide)

/-- When the duplicate-email guard passed for a validated patch, the email
the update writes to the targeted row collides with no other stored row
whose email differs from the loaded user's. -/
theorem update_email_fresh (db : List UserEntity) (orig : UserEntity)
    (udto : UpdateUserDto)
    (hdup : UserService.updateDupEmail db { orig with password := none } udto = false)
    (hvalid : udto.email.all validEmail = true) :
    ∀ c ∈ db, c.email ≠ orig.email →
      udto.email.getD orig.email ≠ c.email := by
  intro c hc hco
  cases hpe : udto.email with
  | none => simpa using hco.symm
  | some e =>
    have hev : validEmail e = true := by
      rw [hpe] at hvalid
      simpa using hvalid
    have hene : e ≠ "" := by
      intro h0
      rw [h0] at hev
      exact absurd hev (by decide)
    by_cases heq : e = orig.email
    · simpa [heq] using hco.symm
    · simp only [UserService.updateDupEmail, hpe] at hdup
      have h1 : (e != "") = true := by simpa using hene
      have h2 : (e != ({ orig with password := none } : UserEntity).email) = true := by
        simpa using heq
      rw [h1, h2] at hdup
      simp only [Bool.true_and] at hdup
      have hnot : ∀ u ∈ db, u.email ≠ e := by
        intro u huu hue
        have hs : (db.find? (fun x => x.email == e)).isSome :=
          List.find?_isSome.mpr ⟨u, huu, by simpa using hue⟩
        rw [hdup] at hs
        exact Bool.false_ne_true hs
      intro h3
      exact hnot c hc (by simpa using h3.symm)

/-- C3: email uniqueness is preserved: starting from a table with pairwise
distinct emails (and the repository invariant of pairwise distinct ids),
every successful create and every successful update with a validated patch
yields a table whose emails are still pairwise distinct. -/
theorem email_uniqueness_preserved (db db2 db3 : List UserEntity)
    (v w : UserEntity) (cdto : CreateUserDto) (udto : UpdateUserDto)
    (id newId now : Nat) (salt1 salt2 : String)
    (hemails : db.Pairwise (fun a b => a.email ≠ b.email))
    (hids : db.Pairwise (fun a b => a.id ≠ b.id))
    (hvalid : udto.email.all validEmail = true)
    (hc : UserService.create true db cdto salt1 newId now = .ok (db2, v))
    (hu : UserService.update db id udto salt2 = .ok (db3, w)) :
    db2.Pairwise (fun a b => a.email ≠ b.email) ∧
    db3.Pairwise (fun a b => a.email ≠ b.email) := by
  constructor
  · cases hfind : db.find? (fun u => u.email == cdto.email) with
    | some u => simp [UserService.create, hfind] at hc
    | none =>
      rw [create_ok_of_find_none db cdto salt1 newId now hfind] at hc
      rw [Except.ok.injEq, Prod.mk.injEq] at hc
      rw [← hc.1]
      rw [List.pairwise_append]
      refine ⟨hemails, by simp, ?_⟩
      intro a ha b hb
      rcases List.mem_singleton.mp hb with rfl
      have := List.find?_eq_none.mp hfind a ha
      simpa [UserService.newUserEntity] using this
  · cases hfind : db.find? (fun u => u.id == id) with
    | none => simp [UserService.update, UserService.findById, hfind] at hu
    | some orig =>
      obtain ⟨hdup, hdb3, hw⟩ := update_ok_inv db db3 id udto salt2 w orig hfind hu
      subst hdb3
      have horigid : orig.id = id := by simpa using List.find?_some hfind
      rw [List.pairwise_map]
      refine List.Pairwise.imp_of_mem ?_ (hemails.and hids)
      intro a b ha hb hab
      obtain ⟨hanb, hani⟩ := hab
      by_cases haid : a.id = orig.id
      · by_cases hbid : b.id = orig.id
        · exact absurd (haid.trans hbid.symm) hani
        · have ha_eq : a = orig :=
            find_id_unique db id orig hids hfind a ha (haid.trans horigid)
          rw [updateRow_email_target _ _ _ a (by simpa using haid),
              updateRow_untouched _ _ _ b (by simpa using hbid)]
          exact update_email_fresh db orig udto hdup hvalid b hb
            (ha_eq ▸ hanb).symm
      · by_cases hbid : b.id = orig.id
        · have hb_eq : b = orig :=
            find_id_unique db id orig hids hfind b hb (hbid.trans horigid)
          rw [updateRow_untouched _ _ _ a (by simpa using haid),
              updateRow_email_target _ _ _ b (by simpa using hbid)]
          exact (update_email_fresh db orig udto hdup hvalid a ha
            (hb_eq ▸ hanb)).symm
        · rw [updateRow_untouched _ _ _ a (by simpa using haid),
              updateRow_untouched _ _ _ b (by simpa using hbid)]
          exact hanb

/-- C3, witnessed at a concrete table: creating carol and changing bob's
email to a fresh address both preserve pairwise distinct emails. -/
theorem email_uniqueness_preserved_witness :
    (sampleDb ++ [carolEntity]).Pairwise (fun a b => a.email ≠ b.email) ∧
    daveDb.Pairwise (fun a b => a.email ≠ b.email) :=
  email_uniqueness_preserved sampleDb (sampleDb ++ [carolEntity]) daveDb
    { carolEntity with password := none } daveView carolDto davePatch 2 3 30 "sC" "sD"
    (by decide) (by decide) (by decide) (by decide) (by decide)
